import Mathlib

/-!
# PeerSync (lib/PeerSync.js)

A shallow embedding of the peer-synchronisation object of insight-api.

* The object's own fields are the structure `PeerSync`.
* The two pieces of environment its methods act on (the peer manager's
  listener table and the interval timers of the event loop) sit next to it in
  `World`.
* Calls into collaborators (`sockets`, `sync`, `historicSync`, `console`, `fs`,
  the peer manager, a connection) are recorded, in program order, as a list of
  `Effect`s.
* Asynchronous completion is explicit: the function passed to `storeTx`,
  `storeTipBlock` or `historicSync.start` is a definition of its own, applied
  to the object as it is when the completion is delivered.
-/

namespace Insight

/-! ## Data -/

/-- The fields of `config` read by the file. -/
structure Config where
  network : String
  p2pHost : String
  p2pPort : Nat
deriving DecidableEq

/-- The fields of `opts` read by the constructor, by truthiness. -/
structure Opts where
  shouldBroadcast : Bool
  verbose : Bool
deriving DecidableEq

/-- One element of `this.peerdb`. -/
structure PeerEntry where
  ipv4 : String
  port : Nat
deriving DecidableEq

/-- A raw transaction as carried by `info.message.tx`. -/
abbrev RawTx := String

/-- A raw (binary) hash, before `formatHashFull`. -/
abbrev RawHash := List Nat

/-- The record returned by `getStandardizedTx`; `time` is `none` when the
property is undefined. -/
structure StdTx where
  txid : String
  time : Option Nat
deriving DecidableEq

/-- A transaction inside a block message: only `tx.hash` is read. -/
structure BlockTx where
  hash : RawHash
deriving DecidableEq

/-- The `info.message.block` of a block message: `calcHash` is the value of
`block.calcHash()`. -/
structure Block where
  calcHash : RawHash
  txs : List BlockTx
  prev_hash : RawHash
deriving DecidableEq

/-- The object literal handed to `storeTipBlock`. -/
structure TipBlock where
  hash : String
  tx : List String
  previousblockhash : String
deriving DecidableEq

/-- The functions of collaborating libraries that the handlers call for a
value: `sync.txDb.getStandardizedTx` and `bitcoreUtil.formatHashFull`. -/
structure Lib where
  getStandardizedTx : RawTx → StdTx
  formatHashFull : RawHash → String

/-- The `message` property of an error value: undefined (or null), a string,
or a value that is not a string and has no `match` method (a number, a plain
object). -/
inductive JsMessage where
  | undefined
  | str (s : String)
  | nonString
deriving DecidableEq

/-- How an error value prints: the text `console.log` shows for it, and the
result of `JSON.stringify` applied to it, `none` when that call raises (a
circular structure, a BigInt). -/
structure ErrText where
  logged : String
  json : Option String
deriving DecidableEq

/-- The first argument of a node-style callback: a falsy value (no error), or a
truthy one, of which the handlers read the `message` property and the printed
forms. -/
inductive JsErr where
  | falsy
  | truthy (shown : ErrText) (message : JsMessage)
deriving DecidableEq

/-- The second argument of the `storeTx` callback: undefined, an array (a
sequence of values), or a plain object given by its own enumerable keys in
enumeration order. -/
inductive JsAddrs where
  | undefined
  | array (elems : List String)
  | object (keys : List String)
deriving DecidableEq

/-- The exception raised by reading a property of undefined or calling a
non-function. -/
inductive JsException where
  | typeError
deriving DecidableEq

/-- Calls made to collaborators. -/
inductive Effect where
  | consoleLog (args : List String)
  | writeFileSync (fn : String) (peers : List PeerEntry)
  | addPeer (ipv4 : String) (port : Nat)
  | peermanStart
  | connOn (conn : Nat) (event : String)
  | setInterval (handle : Nat) (ms : Nat)
  | clearInterval (handle : Nat)
  | sendGetData (conn : Nat) (invs : List String)
  | storeTx (tx : StdTx)
  | storeTipBlock (b : TipBlock) (allowReorgs : Bool)
  | broadcastTx (tx : StdTx) (txType : String)
  | broadcastAddressTx (txid : String) (addr : String)
  | broadcastBlock (hash : String)
  | historicSyncStart (forceRPC : Nat)
  | syncClose
deriving DecidableEq

/-- What running a function body did: the calls it made, and the exception it
ended with, if any. -/
structure Outcome where
  effects : List Effect
  thrown : Option JsException
deriving DecidableEq

/-- The fields of a PeerSync object. `timer` and `historicSync` are not set by
the constructor; `historicSync` records whether the property holds a
collaborator. -/
structure PeerSync where
  shouldBroadcast : Bool
  connected : Bool
  interval : Nat
  peerdb : List PeerEntry
  allowReorgs : Bool
  verbose : Bool
  timer : Option Nat
  historicSync : Bool
deriving DecidableEq

/-- The events of the peer manager that `run` subscribes to. -/
inductive PmEvent where
  | connection
  | connect
  | netDisconnected
deriving DecidableEq

/-- The three functions `run` registers on the peer manager. -/
inductive Listener where
  | onConnection
  | handleConnected
  | onNetDisconnected
deriving DecidableEq

/-- A PeerSync object with the peer manager's listener table (registration
order, as an event emitter keeps it) and the interval timers that are set and
not cleared, as (handle, period) pairs. Handles are truthy values, numbered
from 1. -/
structure World where
  ps : PeerSync
  listeners : List (PmEvent × Listener)
  timers : List (Nat × Nat)
  nextHandle : Nat
deriving DecidableEq

/-- The value returned by `info`. -/
structure Info where
  connected : Bool
  host : String
  port : Nat
deriving DecidableEq

/-! ## Small pieces of JavaScript -/

/-- Whether the second list starts the first. -/
def startsWith : List Char → List Char → Bool
  | _, [] => true
  | [], _ :: _ => false
  | c :: cs, p :: ps => c == p && startsWith cs ps

/-- Whether the second list occurs somewhere in the first. -/
def containsAt : List Char → List Char → Bool
  | [], p => startsWith [] p
  | c :: cs, p => startsWith (c :: cs) p || containsAt cs p

/-- Truthiness of `s.match(/NEED_SYNC/)`: the literal occurs in `s`. -/
def matchNEED_SYNC (s : String) : Bool :=
  containsAt s.toList "NEED_SYNC".toList

/-- The expression `Math.round(Date.now() / 1000)` for a clock reading of `ms`
milliseconds: the nearest integer to `ms / 1000`, a half rounding up. -/
def mathRoundSeconds (ms : Nat) : Nat :=
  (ms + 500) / 1000

/-- The expression `a || b` for a number that may be undefined: `a` when it is
truthy (defined and not 0), otherwise `b`. -/
def jsOr (a : Option Nat) (b : Nat) : Nat :=
  match a with
  | some t => if t = 0 then b else t
  | none => b

/-- The keys visited by `for (var ii in addrs)`. -/
def forInKeys : JsAddrs → List String
  | .undefined => []
  | .array elems => (List.range elems.length).map toString
  | .object keys => keys

/-- Truthiness of the second callback argument. -/
def JsAddrs.truthy : JsAddrs → Bool
  | .undefined => false
  | .array _ => true
  | .object _ => true

/-! ## Methods -/

/-- The file name `peerdb_fn`. -/
def peerdb_fn : String := "peerdb.json"

/-- Method `log`. -/
def log (self : PeerSync) (args : List String) : List Effect :=
  if self.verbose then [.consoleLog args] else []

/-- Method `load_peers`. -/
def load_peers (cfg : Config) (self : PeerSync) : PeerSync × List Effect :=
  let peerdb := [{ ipv4 := cfg.p2pHost, port := cfg.p2pPort : PeerEntry }]
  ({ self with peerdb := peerdb }, [.writeFileSync peerdb_fn peerdb])

/-- The constructor, with a new peer manager and no timer. -/
def construct (cfg : Config) (opts : Opts) : World × List Effect :=
  let self0 : PeerSync :=
    { shouldBroadcast := opts.shouldBroadcast
      connected := false
      interval := 5000
      peerdb := []
      allowReorgs := false
      verbose := false
      timer := none
      historicSync := false }
  let r := load_peers cfg self0
  ({ ps := { r.1 with verbose := opts.verbose }, listeners := [], timers := [], nextHandle := 1 },
    r.2)

/-- Method `info`; reading `peerdb[0]` of an empty array raises. -/
def info (self : PeerSync) : Except JsException Info :=
  match self.peerdb with
  | [] => .error .typeError
  | p :: _ => .ok { connected := self.connected, host := p.ipv4, port := p.port }

/-- Method `handleInv`. -/
def handleInv (conn : Nat) (invs : List String) : List Effect :=
  [.sendGetData conn invs]

/-- Method `_broadcastAddr`. -/
def _broadcastAddr (txid : String) (addrs : JsAddrs) : List Effect :=
  if addrs.truthy then (forInKeys addrs).map (fun ii => .broadcastAddressTx txid ii) else []

/-- What the function passed to `storeTx` has captured: the record `tx` and
the tag `txType`. -/
structure PendingTx where
  tx : StdTx
  txType : String
deriving DecidableEq

/-- The synchronous part of `_handleTx` for a clock reading of `nowMs`
milliseconds: the calls made, and what the function handed to `storeTx`
captures. -/
def _handleTx (lib : Lib) (self : PeerSync) (raw : RawTx) (txType : String) (nowMs : Nat) :
    PendingTx × List Effect :=
  let tx := lib.getStandardizedTx raw
  let l := log self ["[p2p_sync] Handle tx: " ++ tx.txid]
  let tx := { tx with time := some (jsOr tx.time (mathRoundSeconds nowMs)) }
  ({ tx := tx, txType := txType }, l ++ [.storeTx tx])

/-- Method `handleTx`. -/
def handleTx (lib : Lib) (self : PeerSync) (raw : RawTx) (nowMs : Nat) :
    PendingTx × List Effect :=
  _handleTx lib self raw "tx" nowMs

/-- Method `handleIX`. -/
def handleIX (lib : Lib) (self : PeerSync) (raw : RawTx) (nowMs : Nat) :
    PendingTx × List Effect :=
  _handleTx lib self raw "ix" nowMs

/-- The function `_handleTx` passes to `storeTx`, run on the object as it is at
completion. In the error branch `JSON.stringify(err)` is evaluated before `log`
is entered, so it raises whether or not the object is verbose. -/
def storeTxCallback (self : PeerSync) (p : PendingTx) (err : JsErr)
    (relatedAddrs : JsAddrs) : Outcome :=
  match err with
  | .truthy shown _ =>
    match shown.json with
    | none => { effects := [], thrown := some .typeError }
    | some j =>
      { effects := log self ["[p2p_sync] Error in handle TX: " ++ j], thrown := none }
  | .falsy =>
    { effects :=
        if self.shouldBroadcast then
          [.broadcastTx p.tx p.txType] ++ _broadcastAddr p.tx.txid relatedAddrs
        else []
      thrown := none }

/-- The object literal built by `handleBlock`, with `tx_hashes` the map of
`formatHashFull` over `block.txs`. -/
def tipBlockOf (lib : Lib) (block : Block) : TipBlock :=
  { hash := lib.formatHashFull block.calcHash
    tx := block.txs.map (fun tx => lib.formatHashFull tx.hash)
    previousblockhash := lib.formatHashFull block.prev_hash }

/-- The synchronous part of `handleBlock`: the `blockHash` captured by the
function handed to `storeTipBlock`, and the calls made. -/
def handleBlock (lib : Lib) (self : PeerSync) (block : Block) : String × List Effect :=
  let blockHash := lib.formatHashFull block.calcHash
  (blockHash,
    log self ["[p2p_sync] Handle block: " ++ blockHash ++ " (allowReorgs: "
        ++ toString self.allowReorgs ++ ")"]
      ++ [.storeTipBlock (tipBlockOf lib block) self.allowReorgs])

/-- The value of `err && err.message.match(/NEED_SYNC/) && self.historicSync`,
by truthiness, or the exception its evaluation raises. -/
def needSyncCond (self : PeerSync) (err : JsErr) : Except JsException Bool :=
  match err with
  | .falsy => .ok false
  | .truthy _ .undefined => .error .typeError
  | .truthy _ .nonString => .error .typeError
  | .truthy _ (.str s) => .ok (matchNEED_SYNC s && self.historicSync)

/-- Truthiness of an error value. -/
def JsErr.truthy? : JsErr → Bool
  | .falsy => false
  | .truthy _ _ => true

/-- The text `console.log` shows for an error value. -/
def JsErr.show : JsErr → String
  | .falsy => ""
  | .truthy shown _ => shown.logged

/-- The function `handleBlock` passes to `storeTipBlock`. -/
def storeTipBlockCallback (self : PeerSync) (blockHash : String) (err : JsErr)
    (_height : Option Nat) : Outcome :=
  match needSyncCond self err with
  | .error e => { effects := [], thrown := some e }
  | .ok true =>
    { effects := log self ["[p2p_sync] Orphan block received. Triggering sync"]
        ++ [.historicSyncStart 1]
      thrown := none }
  | .ok false =>
    if err.truthy? then
      { effects := log self ["[p2p_sync] Error in handle Block: ", err.show], thrown := none }
    else if self.shouldBroadcast then
      { effects := [.broadcastBlock blockHash], thrown := none }
    else { effects := [], thrown := none }

/-- The function `handleBlock` passes to `historicSync.start`. -/
def resyncDone (self : PeerSync) : List Effect :=
  log self ["[p2p_sync] Done resync."]

/-- Method `handleConnected`. -/
def handleConnected (self : PeerSync) (peers_n : Nat) : List Effect :=
  log self ["[p2p_sync] Connected to " ++ toString peers_n ++ " peer"
    ++ (if peers_n ≠ 1 then "s" else "")]

/-- Method `run`. -/
def run (w : World) : World × List Effect :=
  let cleared : List (Nat × Nat) × List Effect :=
    match w.ps.timer with
    | some h => (w.timers.filter (fun t => t.1 ≠ h), [.clearInterval h])
    | none => (w.timers, [])
  let added := w.ps.peerdb.map (fun datum => Effect.addPeer datum.ipv4 datum.port)
  ({ w with
      timers := cleared.1
      listeners := w.listeners ++
        [(.connection, .onConnection), (.connect, .handleConnected),
         (.netDisconnected, .onNetDisconnected)] },
    cleared.2 ++ added ++ [.peermanStart])

/-- Method `checkStatus`. -/
def checkStatus (w : World) : World × List Effect :=
  if !w.ps.connected && w.ps.timer.isSome then run w else (w, [])

/-- The body of one registered listener; `arg` is the connection for
`connection` and the peer count for `connect`. -/
def callListener (l : Listener) (arg : Nat) (w : World) : World × List Effect :=
  match l with
  | .onConnection =>
    ({ w with ps := { w.ps with connected := true } },
      [.connOn arg "inv", .connOn arg "block", .connOn arg "tx", .connOn arg "ix"])
  | .handleConnected => (w, handleConnected w.ps arg)
  | .onNetDisconnected =>
    let w1 := { w with ps := { w.ps with connected := false } }
    match w1.ps.timer with
    | none =>
      ({ w1 with
          ps := { w1.ps with timer := some w1.nextHandle }
          timers := w1.timers ++ [(w1.nextHandle, w1.ps.interval)]
          nextHandle := w1.nextHandle + 1 },
        [.setInterval w1.nextHandle w1.ps.interval])
    | some _ => (w1, [])

/-- Calling listeners one after the other. -/
def callAll : List Listener → Nat → World → World × List Effect
  | [], _, w => (w, [])
  | l :: ls, arg, w =>
    let r := callListener l arg w
    let r2 := callAll ls arg r.1
    (r2.1, r.2 ++ r2.2)

/-- The listeners registered for an event, in registration order. -/
def listenersOf (w : World) (ev : PmEvent) : List Listener :=
  (w.listeners.filter (fun p => p.1 = ev)).map (fun p => p.2)

/-- The peer manager emitting an event. -/
def emit (ev : PmEvent) (arg : Nat) (w : World) : World × List Effect :=
  callAll (listenersOf w ev) arg w

/-- Method `close`. -/
def close (w : World) : World × List Effect :=
  (w, [.syncClose])

/-! ## The object over time -/

/-- What can happen to a PeerSync object: method calls, events of the peer
manager, a tick of a running interval timer, messages of a connection, and the
completions of the asynchronous calls. -/
inductive Event where
  | run
  | connection (conn : Nat)
  | connect (peers_n : Nat)
  | netDisconnected
  | tick
  | checkStatus
  | info
  | close
  | handleInv (conn : Nat) (invs : List String)
  | handleTx (raw : RawTx) (nowMs : Nat)
  | handleIX (raw : RawTx) (nowMs : Nat)
  | storeTxDone (p : PendingTx) (err : JsErr) (relatedAddrs : JsAddrs)
  | handleBlock (block : Block)
  | storeTipBlockDone (blockHash : String) (err : JsErr) (height : Option Nat)
  | resyncDone
deriving DecidableEq

/-- One event: the world after it and the calls made. A tick happens only
while an interval timer is set. -/
def step (lib : Lib) (w : World) : Event → World × List Effect
  | .run => run w
  | .connection conn => emit .connection conn w
  | .connect n => emit .connect n w
  | .netDisconnected => emit .netDisconnected 0 w
  | .tick => if w.timers.isEmpty then (w, []) else checkStatus w
  | .checkStatus => checkStatus w
  | .info => (w, [])
  | .close => close w
  | .handleInv conn invs => (w, handleInv conn invs)
  | .handleTx raw nowMs => (w, (handleTx lib w.ps raw nowMs).2)
  | .handleIX raw nowMs => (w, (handleIX lib w.ps raw nowMs).2)
  | .storeTxDone p err addrs => (w, (storeTxCallback w.ps p err addrs).effects)
  | .handleBlock block => (w, (handleBlock lib w.ps block).2)
  | .storeTipBlockDone h err height => (w, (storeTipBlockCallback w.ps h err height).effects)
  | .resyncDone => (w, resyncDone w.ps)

/-- A sequence of events, with all calls made along the way. -/
def runTrace (lib : Lib) : World → List Event → World × List Effect
  | w, [] => (w, [])
  | w, e :: es =>
    let r := step lib w e
    let r2 := runTrace lib r.1 es
    (r2.1, r.2 ++ r2.2)

/-- The world reached from a new object. -/
def after (lib : Lib) (cfg : Config) (opts : Opts) (evs : List Event) : World :=
  (runTrace lib (construct cfg opts).1 evs).1

/-- Calls to `historicSync.start` among a list of calls, by their option. -/
def startCalls : List Effect → List Nat
  | [] => []
  | .historicSyncStart f :: es => f :: startCalls es
  | _ :: es => startCalls es

/-- Whether a call is one of the three broadcasts. -/
def Effect.isBroadcast : Effect → Bool
  | .broadcastTx _ _ => true
  | .broadcastAddressTx _ _ => true
  | .broadcastBlock _ => true
  | _ => false

/-- Whether a call is a start of the historic sync, a store or a broadcast. -/
def Effect.isStartStoreOrBroadcast : Effect → Bool
  | .historicSyncStart _ => true
  | .storeTx _ => true
  | .storeTipBlock _ _ => true
  | e => e.isBroadcast

/-- Whether a call is a `storeTipBlock`. -/
def Effect.isStoreTipBlock : Effect → Bool
  | .storeTipBlock _ _ => true
  | _ => false

/-- The number of times `run` was entered, counted by its `peerman.start()`. -/
def runCount (es : List Effect) : Nat :=
  es.count .peermanStart

/-- A sample library: the raw transaction is its own id and carries no time,
hashes are printed as decimal digits. -/
def sampleLib : Lib :=
  { getStandardizedTx := fun raw => { txid := raw, time := none }
    formatHashFull := fun h => String.join (h.map toString) }

/-- A sample configuration. -/
def sampleCfg : Config := { network := "livenet", p2pHost := "127.0.0.1", p2pPort := 9999 }

/-- Sample options: broadcasting on, not verbose. -/
def sampleOpts : Opts := { shouldBroadcast := true, verbose := false }

/-- A new object built from the sample configuration. -/
def sampleSelf : PeerSync := (construct sampleCfg sampleOpts).1.ps

/-- A library whose standardized transactions carry the time 0. -/
def zeroTimeLib : Lib :=
  { getStandardizedTx := fun raw => { txid := raw, time := some 0 }
    formatHashFull := fun h => String.join (h.map toString) }

/-- An error value is classified as "needs sync": it is truthy and its message
is a string in which NEED_SYNC occurs. -/
def JsErr.needsSync : JsErr → Bool
  | .truthy _ (.str s) => matchNEED_SYNC s
  | _ => false

/-- Whether a call is a `storeTx`. -/
def Effect.isStoreTx : Effect → Bool
  | .storeTx _ => true
  | _ => false

/-- The fields of the object that no method assigns after construction. -/
def PeerSync.fixed (self : PeerSync) : Bool × Nat × List PeerEntry × Bool × Bool × Bool :=
  (self.shouldBroadcast, self.interval, self.peerdb, self.allowReorgs, self.verbose,
    self.historicSync)

/-- At most one interval timer is set, and none while `this.timer` is unset. -/
def TimerInv (w : World) : Prop :=
  w.timers.length ≤ 1 ∧ (w.ps.timer = none → w.timers = [])

/-- The listener table after `n` registrations by `run`. -/
def regs : Nat → List (PmEvent × Listener)
  | 0 => []
  | n + 1 =>
    [(.connection, .onConnection), (.connect, .handleConnected),
      (.netDisconnected, .onNetDisconnected)] ++ regs n

/-- The listener `run` registers for an event. -/
def listenerFor : PmEvent → Listener
  | .connection => .onConnection
  | .connect => .handleConnected
  | .netDisconnected => .onNetDisconnected

/-! ## Block ingestion -/

theorem log_filter_none (self : PeerSync) (args : List String) (p : Effect → Bool)
    (hp : ∀ a, p (.consoleLog a) = false) : (log self args).filter p = [] := by
  unfold log
  split <;> simp [hp]

theorem startCalls_log (self : PeerSync) (args : List String) :
    startCalls (log self args) = [] := by
  unfold log
  split <;> simp [startCalls]

theorem startCalls_append (xs ys : List Effect) :
    startCalls (xs ++ ys) = startCalls xs ++ startCalls ys := by
  induction xs with
  | nil => simp [startCalls]
  | cons x xs ih => cases x <;> simp [startCalls, ih]

theorem storeTipBlockCallback_str (self : PeerSync) (blockHash : String) (shown : ErrText)
    (s : String) (height : Option Nat) :
    storeTipBlockCallback self blockHash (.truthy shown (.str s)) height
      = (if matchNEED_SYNC s && self.historicSync then
          { effects := log self ["[p2p_sync] Orphan block received. Triggering sync"]
              ++ [.historicSyncStart 1]
            thrown := none }
        else
          { effects := log self ["[p2p_sync] Error in handle Block: ", shown.logged]
            thrown := none }) := by
  by_cases h : (matchNEED_SYNC s && self.historicSync) = true
  · simp only [storeTipBlockCallback, needSyncCond, h, if_true]
  · simp only [Bool.not_eq_true] at h
    simp [storeTipBlockCallback, needSyncCond, h, JsErr.truthy?, JsErr.show]

theorem storeTipBlockCallback_falsy (self : PeerSync) (blockHash : String)
    (height : Option Nat) :
    storeTipBlockCallback self blockHash .falsy height
      = (if self.shouldBroadcast then { effects := [.broadcastBlock blockHash], thrown := none }
        else { effects := [], thrown := none }) := by
  simp [storeTipBlockCallback, needSyncCond, JsErr.truthy?]

/-- C1: of the function handed to storeTipBlock, for every error value, height
and object: historicSync.start is called exactly once, with forceRPC 1 (a truthy
option), when the error is truthy, its message matches NEED_SYNC and a
historicSync is set, and is not called at all otherwise; and the function
handed to start, whenever it runs, makes no start, store or broadcast call. -/
theorem handleBlock_start_once_iff_need_sync (self later : PeerSync) (blockHash : String)
    (err : JsErr) (height : Option Nat) :
    startCalls (storeTipBlockCallback self blockHash err height).effects
        = (if err.needsSync && self.historicSync then [1] else [])
      ∧ (resyncDone later).filter Effect.isStartStoreOrBroadcast = [] := by
  refine ⟨?_, log_filter_none _ _ _ (fun _ => rfl)⟩
  rcases err with _ | ⟨shown, _ | s | _⟩
  · rw [storeTipBlockCallback_falsy]
    cases self.shouldBroadcast <;> simp [startCalls, JsErr.needsSync]
  · simp [storeTipBlockCallback, needSyncCond, JsErr.needsSync, startCalls]
  · rw [storeTipBlockCallback_str]
    simp only [JsErr.needsSync]
    split
    · simp [startCalls_append, startCalls_log, startCalls]
    · simp [startCalls_log]
  · simp [storeTipBlockCallback, needSyncCond, JsErr.needsSync, startCalls]

/-- C2: at a truthy error value whose message is undefined, or is not a
string, the function handed to storeTipBlock ends with a TypeError, having made
no call. -/
theorem handleBlock_callback_raises_without_message (self : PeerSync) (blockHash : String)
    (shown : ErrText) (height : Option Nat) :
    storeTipBlockCallback self blockHash (.truthy shown .undefined) height
        = { effects := [], thrown := some .typeError }
      ∧ storeTipBlockCallback self blockHash (.truthy shown .nonString) height
        = { effects := [], thrown := some .typeError } := by
  constructor <;> rfl

/-- C9: handleBlock calls storeTipBlock exactly once, with the formatted block
hash, the formatted hashes of the transactions in block order, the formatted
previous hash and the allowReorgs flag, and broadcasts nothing itself; the
function it hands over makes no further storeTipBlock call, and its broadcast
calls are exactly broadcastBlock of the formatted block hash when the error is
falsy and shouldBroadcast is set, and none otherwise. -/
theorem handleBlock_store_then_broadcast (lib : Lib) (self later : PeerSync) (block : Block)
    (err : JsErr) (height : Option Nat) :
    (handleBlock lib self block).1 = lib.formatHashFull block.calcHash
      ∧ (handleBlock lib self block).2.filter Effect.isStoreTipBlock
        = [.storeTipBlock
            { hash := lib.formatHashFull block.calcHash
              tx := block.txs.map (fun tx => lib.formatHashFull tx.hash)
              previousblockhash := lib.formatHashFull block.prev_hash }
            self.allowReorgs]
      ∧ (handleBlock lib self block).2.filter Effect.isBroadcast = []
      ∧ (storeTipBlockCallback later (handleBlock lib self block).1 err height).effects.filter
          Effect.isStoreTipBlock = []
      ∧ (storeTipBlockCallback later (handleBlock lib self block).1 err height).effects.filter
          Effect.isBroadcast
        = (if !err.truthy? && later.shouldBroadcast then
            [.broadcastBlock (lib.formatHashFull block.calcHash)] else []) := by
  refine ⟨rfl, ?_, ?_, ?_, ?_⟩
  · simp [handleBlock, tipBlockOf, List.filter_append, log_filter_none, Effect.isStoreTipBlock]
  · simp [handleBlock, List.filter_append, log_filter_none, Effect.isBroadcast]
  · rcases err with _ | ⟨shown, _ | s | _⟩
    · rw [storeTipBlockCallback_falsy]
      cases later.shouldBroadcast <;> simp [Effect.isStoreTipBlock]
    · simp [storeTipBlockCallback, needSyncCond]
    · rw [storeTipBlockCallback_str]
      split <;> simp [List.filter_append, log_filter_none, Effect.isStoreTipBlock]
    · simp [storeTipBlockCallback, needSyncCond]
  · rcases err with _ | ⟨shown, _ | s | _⟩
    · rw [storeTipBlockCallback_falsy]
      cases later.shouldBroadcast <;> simp [Effect.isBroadcast, handleBlock, JsErr.truthy?]
    · simp [storeTipBlockCallback, needSyncCond, JsErr.truthy?]
    · rw [storeTipBlockCallback_str]
      split <;> simp [List.filter_append, log_filter_none, Effect.isBroadcast, JsErr.truthy?]
    · simp [storeTipBlockCallback, needSyncCond, JsErr.truthy?]

/-! ## Transaction ingestion -/

/-- C3, as stated, fails: when storeTx hands back the sequence [A, B], the two
broadcastAddressTx calls carry the positions 0 and 1, not the addresses. -/
theorem broadcastAddr_sequence_sends_positions :
    storeTxCallback sampleSelf (handleTx sampleLib sampleSelf "T" 0).1 .falsy (.array ["A", "B"])
        = { effects := [.broadcastTx { txid := "T", time := some 0 } "tx",
              .broadcastAddressTx "T" "0", .broadcastAddressTx "T" "1"]
            thrown := none }
      ∧ Effect.broadcastAddressTx "T" "A" ∉
          (storeTxCallback sampleSelf (handleTx sampleLib sampleSelf "T" 0).1 .falsy
            (.array ["A", "B"])).effects := by
  decide

/-- C3, amended: when storeTx succeeds and shouldBroadcast is set, the calls
made are broadcastTx once, with the stored record and the tag (tx for handleTx,
ix for handleIX), followed by one broadcastAddressTx per key enumerated from the
related addresses, carrying the txid and that key; the keys of an object are
its own keys (the addresses, for a map keyed by address) and the keys of a
sequence are its positions. Without shouldBroadcast nothing is called. -/
theorem handleTx_broadcasts_once_per_key (lib : Lib) (self later : PeerSync) (raw : RawTx)
    (nowMs : Nat) (addrs : JsAddrs) :
    storeTxCallback later (handleTx lib self raw nowMs).1 .falsy addrs
        = { effects :=
              (if later.shouldBroadcast then
                .broadcastTx (handleTx lib self raw nowMs).1.tx "tx" ::
                  (forInKeys addrs).map
                    (fun k => Effect.broadcastAddressTx (lib.getStandardizedTx raw).txid k)
              else [])
            thrown := none }
      ∧ storeTxCallback later (handleIX lib self raw nowMs).1 .falsy addrs
        = { effects :=
              (if later.shouldBroadcast then
                .broadcastTx (handleIX lib self raw nowMs).1.tx "ix" ::
                  (forInKeys addrs).map
                    (fun k => Effect.broadcastAddressTx (lib.getStandardizedTx raw).txid k)
              else [])
            thrown := none }
      ∧ (handleTx lib self raw nowMs).2.filter Effect.isStoreTx
        = [.storeTx (handleTx lib self raw nowMs).1.tx]
      ∧ (∀ keys, forInKeys (.object keys) = keys)
      ∧ (∀ elems, forInKeys (.array elems) = (List.range elems.length).map toString) := by
  refine ⟨?_, ?_, ?_, fun _ => rfl, fun _ => rfl⟩
  · cases addrs <;> cases h : later.shouldBroadcast <;>
      simp [storeTxCallback, handleTx, _handleTx, _broadcastAddr, JsAddrs.truthy, forInKeys, h]
  · cases addrs <;> cases h : later.shouldBroadcast <;>
      simp [storeTxCallback, handleIX, _handleTx, _broadcastAddr, JsAddrs.truthy, forInKeys, h]
  · simp [handleTx, _handleTx, List.filter_append, log_filter_none, Effect.isStoreTx]

/-- C8, as stated, fails: at a clock reading of 1500 ms a transaction without a
time is stored with time 2, while floor(1500 / 1000) is 1; and a transaction
whose standardized form carries the time 0 is stored with time 2 as well. -/
theorem handleTx_time_is_rounded_not_floored :
    (_handleTx sampleLib sampleSelf "T" "tx" 1500).1.tx.time = some 2
      ∧ (_handleTx sampleLib sampleSelf "T" "tx" 1500).1.tx.time ≠ some (1500 / 1000)
      ∧ (zeroTimeLib.getStandardizedTx "T").time = some 0
      ∧ (_handleTx zeroTimeLib sampleSelf "T" "tx" 1500).1.tx.time = some 2 := by
  decide

/-- C8, amended: the record passed to storeTx (exactly one call) has the txid
of the standardized form, and its time is the clock reading in seconds rounded
to the nearest integer (floor(ms / 1000), plus one when ms mod 1000 is at least
500) when the standardized form carries no time or the time 0, and the carried
time unchanged when that is not 0. -/
theorem handleTx_time_default_rounds (lib : Lib) (self : PeerSync) (raw : RawTx)
    (txType : String) (nowMs : Nat) :
    (_handleTx lib self raw txType nowMs).2.filter Effect.isStoreTx
        = [.storeTx (_handleTx lib self raw txType nowMs).1.tx]
      ∧ (_handleTx lib self raw txType nowMs).1.tx.txid = (lib.getStandardizedTx raw).txid
      ∧ (_handleTx lib self raw txType nowMs).1.tx.time
        = some (match (lib.getStandardizedTx raw).time with
            | none => nowMs / 1000 + (if nowMs % 1000 < 500 then 0 else 1)
            | some t =>
              if t = 0 then nowMs / 1000 + (if nowMs % 1000 < 500 then 0 else 1) else t) := by
  have hr : mathRoundSeconds nowMs = nowMs / 1000 + (if nowMs % 1000 < 500 then 0 else 1) := by
    unfold mathRoundSeconds
    split <;> omega
  refine ⟨?_, rfl, ?_⟩
  · simp [_handleTx, List.filter_append, log_filter_none, Effect.isStoreTx]
  · simp only [_handleTx, jsOr, hr]
    cases (lib.getStandardizedTx raw).time <;> rfl

/-! ## The supervisor: listeners, timers and the connected flag -/

theorem regs_snoc (n : Nat) :
    regs n ++ [(.connection, .onConnection), (.connect, .handleConnected),
      (.netDisconnected, .onNetDisconnected)] = regs (n + 1) := by
  induction n with
  | zero => rfl
  | succ k ih =>
    show _ ++ regs k ++ _ = _ ++ regs (k + 1)
    rw [List.append_assoc, ih]

theorem filter_regs (n : Nat) (ev : PmEvent) :
    ((regs n).filter (fun p => p.1 = ev)).map (fun p => p.2)
      = List.replicate n (listenerFor ev) := by
  induction n with
  | zero => rfl
  | succ k ih =>
    cases ev <;>
      simp [regs, List.replicate_succ, listenerFor, List.filter_cons] <;>
      simpa [listenerFor] using ih

theorem listenersOf_regs (w : World) (n : Nat) (h : w.listeners = regs n) (ev : PmEvent) :
    listenersOf w ev = List.replicate n (listenerFor ev) := by
  unfold listenersOf
  rw [h]
  exact filter_regs n ev

theorem onNetDisconnected_unset (a : Nat) (w : World) (h : w.ps.timer = none) :
    callListener .onNetDisconnected a w
      = ({ w with
            ps := { w.ps with connected := false, timer := some w.nextHandle }
            timers := w.timers ++ [(w.nextHandle, w.ps.interval)]
            nextHandle := w.nextHandle + 1 },
          [.setInterval w.nextHandle w.ps.interval]) := by
  simp [callListener, h]

theorem onNetDisconnected_set (a : Nat) (w : World) (t : Nat) (h : w.ps.timer = some t) :
    callListener .onNetDisconnected a w
      = ({ w with ps := { w.ps with connected := false } }, []) := by
  simp [callListener, h]

theorem runCount_append (xs ys : List Effect) :
    runCount (xs ++ ys) = runCount xs + runCount ys := by
  simp [runCount]

theorem runCount_log (self : PeerSync) (args : List String) : runCount (log self args) = 0 := by
  unfold log runCount
  split <;> simp

theorem runCount_callListener (l : Listener) (a : Nat) (w : World) :
    runCount (callListener l a w).2 = 0 := by
  cases l
  · simp [callListener, runCount]
  · simp [callListener, handleConnected, runCount_log]
  · cases ht : w.ps.timer with
    | none => simp [onNetDisconnected_unset a w ht, runCount]
    | some t => simp [onNetDisconnected_set a w t ht, runCount]

theorem runCount_callAll (ls : List Listener) (a : Nat) (w : World) :
    runCount (callAll ls a w).2 = 0 := by
  induction ls generalizing w with
  | nil => rfl
  | cons l ls ih => simp [callAll, runCount_append, runCount_callListener, ih]

theorem run_listeners (w : World) :
    (run w).1.listeners = w.listeners ++ [(.connection, .onConnection),
      (.connect, .handleConnected), (.netDisconnected, .onNetDisconnected)] := rfl

theorem run_ps (w : World) : (run w).1.ps = w.ps := rfl

theorem run_timers (w : World) :
    (run w).1.timers = match w.ps.timer with
      | some h => w.timers.filter (fun t => t.1 ≠ h)
      | none => w.timers := by
  unfold run
  cases w.ps.timer <;> rfl

theorem runCount_run (w : World) : runCount (run w).2 = 1 := by
  unfold run
  have h1 : runCount (w.ps.peerdb.map (fun datum => Effect.addPeer datum.ipv4 datum.port)) = 0 := by
    unfold runCount
    rw [List.count_eq_zero]
    simp
  have h2 : runCount [Effect.peermanStart] = 1 := rfl
  have h3 : ∀ h, runCount [Effect.clearInterval h] = 0 := fun _ => rfl
  have h4 : runCount [] = 0 := rfl
  cases w.ps.timer <;> simp only [runCount_append, h1, h2, h3, h4]

theorem callListener_listeners (l : Listener) (a : Nat) (w : World) :
    (callListener l a w).1.listeners = w.listeners := by
  cases l
  · rfl
  · rfl
  · cases ht : w.ps.timer with
    | none => rw [onNetDisconnected_unset a w ht]
    | some t => rw [onNetDisconnected_set a w t ht]

theorem callAll_listeners (ls : List Listener) (a : Nat) (w : World) :
    (callAll ls a w).1.listeners = w.listeners := by
  induction ls generalizing w with
  | nil => rfl
  | cons l ls ih => simp [callAll, ih, callListener_listeners]

theorem callListener_fixed (l : Listener) (a : Nat) (w : World) :
    (callListener l a w).1.ps.fixed = w.ps.fixed := by
  cases l
  · rfl
  · rfl
  · cases ht : w.ps.timer with
    | none => rw [onNetDisconnected_unset a w ht]; rfl
    | some t => rw [onNetDisconnected_set a w t ht]; rfl

theorem callAll_fixed (ls : List Listener) (a : Nat) (w : World) :
    (callAll ls a w).1.ps.fixed = w.ps.fixed := by
  induction ls generalizing w with
  | nil => rfl
  | cons l ls ih => simp [callAll, ih, callListener_fixed]

theorem callListener_timerInv (l : Listener) (a : Nat) (w : World) (h : TimerInv w) :
    TimerInv (callListener l a w).1 := by
  cases l
  · exact h
  · exact h
  · cases ht : w.ps.timer with
    | none =>
      rw [onNetDisconnected_unset a w ht]
      simp [TimerInv, h.2 ht]
    | some t =>
      rw [onNetDisconnected_set a w t ht]
      exact ⟨h.1, fun hn => by simp [ht] at hn⟩

theorem callAll_timerInv (ls : List Listener) (a : Nat) (w : World) (h : TimerInv w) :
    TimerInv (callAll ls a w).1 := by
  induction ls generalizing w with
  | nil => exact h
  | cons l ls ih => exact ih _ (callListener_timerInv l a w h)

theorem run_timerInv (w : World) (h : TimerInv w) : TimerInv (run w).1 := by
  unfold TimerInv
  rw [run_timers, run_ps]
  cases ht : w.ps.timer with
  | none =>
    have h0 := h.2 ht
    simp [h0]
  | some t =>
    refine ⟨le_trans (List.length_filter_le _ _) h.1, fun hn => by simp at hn⟩

theorem checkStatus_timerInv (w : World) (h : TimerInv w) : TimerInv (checkStatus w).1 := by
  unfold checkStatus
  split
  · exact run_timerInv w h
  · exact h

theorem step_timerInv (lib : Lib) (w : World) (e : Event) (h : TimerInv w) :
    TimerInv (step lib w e).1 := by
  cases e <;> simp only [step, emit, close] <;>
    first
    | exact h
    | exact run_timerInv w h
    | exact checkStatus_timerInv w h
    | exact callAll_timerInv _ _ w h
    | (split
       · exact h
       · exact checkStatus_timerInv w h)

theorem runTrace_timerInv (lib : Lib) (evs : List Event) (w : World) (h : TimerInv w) :
    TimerInv (runTrace lib w evs).1 := by
  induction evs generalizing w with
  | nil => exact h
  | cons e es ih => exact ih _ (step_timerInv lib w e h)

theorem construct_timerInv (cfg : Config) (opts : Opts) : TimerInv (construct cfg opts).1 :=
  ⟨Nat.zero_le _, fun _ => rfl⟩

/-- C4: from a new object, after every step of every finite sequence of run
calls, connection and netDisconnected events, watchdog ticks (and any other
method call or completion), at most one interval timer is set and not
cleared. -/
theorem at_most_one_watchdog_timer (lib : Lib) (cfg : Config) (opts : Opts) (evs : List Event)
    (k : Nat) : (after lib cfg opts (evs.take k)).timers.length ≤ 1 :=
  (runTrace_timerInv lib (evs.take k) _ (construct_timerInv cfg opts)).1

theorem runCount_of_not_mem (es : List Effect) (h : Effect.peermanStart ∉ es) :
    runCount es = 0 :=
  List.count_eq_zero.2 h

theorem runCount_storeTxCallback (self : PeerSync) (p : PendingTx) (err : JsErr)
    (addrs : JsAddrs) : runCount (storeTxCallback self p err addrs).effects = 0 := by
  apply runCount_of_not_mem
  cases err with
  | falsy =>
    unfold storeTxCallback _broadcastAddr
    cases self.shouldBroadcast <;> cases addrs.truthy <;> simp
  | truthy shown m =>
    cases hj : shown.json <;> cases hv : self.verbose <;> simp [storeTxCallback, log, hj, hv]

theorem runCount_storeTipBlockCallback (self : PeerSync) (h : String) (err : JsErr)
    (height : Option Nat) : runCount (storeTipBlockCallback self h err height).effects = 0 := by
  rcases err with _ | ⟨shown, _ | s | _⟩
  · rw [storeTipBlockCallback_falsy]
    split <;> rfl
  · rfl
  · rw [storeTipBlockCallback_str]
    split
    · simp only [runCount_append, runCount_log]
      rfl
    · simp only [runCount_log]
  · rfl

theorem runCount_checkStatus (w : World) :
    (checkStatus w).1.listeners = regs 0 ++ (checkStatus w).1.listeners
      ∧ ((checkStatus w = run w ∧ runCount (checkStatus w).2 = 1)
        ∨ (checkStatus w = (w, []) ∧ runCount (checkStatus w).2 = 0)) := by
  refine ⟨rfl, ?_⟩
  unfold checkStatus
  split
  · exact Or.inl ⟨rfl, runCount_run w⟩
  · exact Or.inr ⟨rfl, rfl⟩

theorem checkStatus_listeners (w : World) (n : Nat) (h : w.listeners = regs n) :
    (checkStatus w).1.listeners = regs (n + runCount (checkStatus w).2) := by
  rcases (runCount_checkStatus w).2 with ⟨h1, h2⟩ | ⟨h1, h2⟩
  · rw [h2, h1, run_listeners, h, regs_snoc]
  · rw [h2, h1]
    exact h

theorem step_listeners (lib : Lib) (w : World) (e : Event) (n : Nat)
    (h : w.listeners = regs n) :
    (step lib w e).1.listeners = regs (n + runCount (step lib w e).2) := by
  cases e with
  | run =>
    simp only [step]
    rw [runCount_run, run_listeners, h, regs_snoc]
  | connection c => simp only [step, emit, callAll_listeners, runCount_callAll, h, Nat.add_zero]
  | connect c => simp only [step, emit, callAll_listeners, runCount_callAll, h, Nat.add_zero]
  | netDisconnected =>
    simp only [step, emit, callAll_listeners, runCount_callAll, h, Nat.add_zero]
  | tick =>
    simp only [step]
    split
    · exact h
    · exact checkStatus_listeners w n h
  | checkStatus => exact checkStatus_listeners w n h
  | info => exact h
  | close => exact h
  | handleInv c invs => exact h
  | handleTx raw nowMs =>
    simp only [step, handleTx, _handleTx, runCount_append, runCount_log]
    exact h
  | handleIX raw nowMs =>
    simp only [step, handleIX, _handleTx, runCount_append, runCount_log]
    exact h
  | storeTxDone p err addrs =>
    simp only [step, runCount_storeTxCallback]
    exact h
  | handleBlock b =>
    simp only [step, handleBlock, runCount_append, runCount_log]
    exact h
  | storeTipBlockDone bh err height =>
    simp only [step, runCount_storeTipBlockCallback]
    exact h
  | resyncDone =>
    simp only [step, resyncDone, runCount_log]
    exact h

theorem runTrace_listeners (lib : Lib) (evs : List Event) (w : World) (n : Nat)
    (h : w.listeners = regs n) :
    (runTrace lib w evs).1.listeners = regs (n + runCount (runTrace lib w evs).2) := by
  induction evs generalizing w n with
  | nil => exact h
  | cons e es ih =>
    simp only [runTrace, runCount_append]
    rw [← Nat.add_assoc]
    exact ih _ _ (step_listeners lib w e n h)

theorem callAll_connOn_count (n conn : Nat) (w : World) (kind : String)
    (hk : kind ∈ ["inv", "block", "tx", "ix"]) :
    (callAll (List.replicate n .onConnection) conn w).2.count (.connOn conn kind) = n := by
  induction n generalizing w with
  | zero => rfl
  | succ k ih =>
    simp only [List.replicate_succ, callAll, List.count_append, ih]
    simp only [List.mem_cons, List.mem_singleton, List.not_mem_nil, or_false] at hk
    rcases hk with rfl | rfl | rfl | rfl <;> simp [callListener, List.count_cons] <;> omega

/-- C6, as stated, fails: after the caller's run and one more run from a
watchdog tick, the peer manager holds two listeners for each of the three
events, and one connection event attaches the inv handler twice. -/
theorem run_twice_registers_twice :
    (listenersOf (after sampleLib sampleCfg sampleOpts [.run, .netDisconnected, .tick])
        .connection).length = 2
      ∧ (listenersOf (after sampleLib sampleCfg sampleOpts [.run, .netDisconnected, .tick])
        .connect).length = 2
      ∧ (listenersOf (after sampleLib sampleCfg sampleOpts [.run, .netDisconnected, .tick])
        .netDisconnected).length = 2
      ∧ runCount (runTrace sampleLib (construct sampleCfg sampleOpts).1
          [.run, .netDisconnected, .tick]).2 = 2
      ∧ (step sampleLib (after sampleLib sampleCfg sampleOpts [.run, .netDisconnected, .tick])
          (.connection 7)).2.count (.connOn 7 "inv") = 2 := by
  decide

/-- C6, amended: after any sequence of events on a new object in which run was
entered n times (by the caller or by watchdog ticks), the peer manager holds
exactly n listeners for each of connection, connect and netDisconnected, and one
connection event attaches each of the four message handlers (inv, block, tx,
ix) to the new connection exactly n times: once only when n is 1. -/
theorem run_registers_once_per_call (lib : Lib) (cfg : Config) (opts : Opts)
    (evs : List Event) (ev : PmEvent) (conn : Nat) :
    (listenersOf (after lib cfg opts evs) ev).length
        = runCount (runTrace lib (construct cfg opts).1 evs).2
      ∧ (step lib (after lib cfg opts evs) (.connection conn)).2.count (.connOn conn "inv")
        = runCount (runTrace lib (construct cfg opts).1 evs).2
      ∧ (step lib (after lib cfg opts evs) (.connection conn)).2.count (.connOn conn "block")
        = runCount (runTrace lib (construct cfg opts).1 evs).2
      ∧ (step lib (after lib cfg opts evs) (.connection conn)).2.count (.connOn conn "tx")
        = runCount (runTrace lib (construct cfg opts).1 evs).2
      ∧ (step lib (after lib cfg opts evs) (.connection conn)).2.count (.connOn conn "ix")
        = runCount (runTrace lib (construct cfg opts).1 evs).2 := by
  have hl : (after lib cfg opts evs).listeners
      = regs (runCount (runTrace lib (construct cfg opts).1 evs).2) := by
    have h0 := runTrace_listeners lib evs (construct cfg opts).1 0 rfl
    rw [Nat.zero_add] at h0
    exact h0
  have hc : ∀ kind, kind ∈ ["inv", "block", "tx", "ix"] →
      (step lib (after lib cfg opts evs) (.connection conn)).2.count (.connOn conn kind)
        = runCount (runTrace lib (construct cfg opts).1 evs).2 := by
    intro kind hk
    simp only [step, emit]
    rw [listenersOf_regs _ _ hl]
    exact callAll_connOn_count _ conn _ kind hk
  refine ⟨?_, hc _ (by simp), hc _ (by simp), hc _ (by simp), hc _ (by simp)⟩
  rw [listenersOf_regs _ _ hl, List.length_replicate]

theorem callAll_onConnection_world (n a : Nat) (w : World) :
    (callAll (List.replicate n .onConnection) a w).1
      = if n = 0 then w else { w with ps := { w.ps with connected := true } } := by
  induction n generalizing w with
  | zero => rfl
  | succ k ih =>
    simp only [List.replicate_succ, callAll, ih, callListener]
    cases k <;> simp

theorem callAll_handleConnected_world (n a : Nat) (w : World) :
    (callAll (List.replicate n .handleConnected) a w).1 = w := by
  induction n generalizing w with
  | zero => rfl
  | succ k ih => simp only [List.replicate_succ, callAll, ih, callListener]

theorem callAll_onNetDisconnected_set (n a t : Nat) (w : World) (h : w.ps.timer = some t)
    (hc : w.ps.connected = false) :
    callAll (List.replicate n .onNetDisconnected) a w = (w, []) := by
  induction n with
  | zero => rfl
  | succ k ih =>
    have hw : ({ w with ps := { w.ps with connected := false } } : World) = w := by
      rw [← hc]
    simp only [List.replicate_succ, callAll, onNetDisconnected_set a w t h, hw, ih,
      List.append_nil]

theorem callAll_onNetDisconnected (n a : Nat) (w : World) :
    callAll (List.replicate (n + 1) .onNetDisconnected) a w
      = callListener .onNetDisconnected a w := by
  simp only [List.replicate_succ, callAll]
  cases ht : w.ps.timer with
  | none =>
    rw [onNetDisconnected_unset a w ht]
    simp only
    rw [callAll_onNetDisconnected_set n a w.nextHandle _ rfl rfl]
    rfl
  | some t =>
    rw [onNetDisconnected_set a w t ht]
    simp only
    rw [callAll_onNetDisconnected_set n a t { w with ps := { w.ps with connected := false } }
      ht rfl]
    rfl

theorem checkStatus_ps (w : World) : (checkStatus w).1.ps = w.ps := by
  unfold checkStatus
  split <;> rfl

theorem filter_nil_of_nil (w : World) (h : w.timers = []) : (run w).1.timers = [] := by
  rw [run_timers, h]
  cases w.ps.timer <;> rfl

theorem checkStatus_no_timer (w : World) (h : w.timers = []) :
    (checkStatus w).1.timers = [] := by
  unfold checkStatus
  split
  · exact filter_nil_of_nil w h
  · exact h

theorem step_connected (lib : Lib) (w : World) (e : Event) (n : Nat)
    (hl : w.listeners = regs n) :
    (step lib w e).1.ps.connected
      = match e with
        | .connection _ => if n = 0 then w.ps.connected else true
        | .netDisconnected => if n = 0 then w.ps.connected else false
        | _ => w.ps.connected := by
  cases e with
  | run => rfl
  | connection c =>
    simp only [step, emit, listenersOf_regs w n hl, listenerFor, callAll_onConnection_world]
    split <;> rfl
  | connect c =>
    simp only [step, emit, listenersOf_regs w n hl, listenerFor, callAll_handleConnected_world]
  | netDisconnected =>
    simp only [step, emit, listenersOf_regs w n hl, listenerFor]
    cases n with
    | zero => rfl
    | succ k =>
      rw [callAll_onNetDisconnected]
      cases ht : w.ps.timer with
      | none => rw [onNetDisconnected_unset 0 w ht]; rfl
      | some t => rw [onNetDisconnected_set 0 w t ht]; rfl
  | tick =>
    simp only [step]
    split
    · rfl
    · rw [checkStatus_ps]
  | checkStatus =>
    simp only [step]
    rw [checkStatus_ps]
  | info => rfl
  | close => rfl
  | handleInv c invs => rfl
  | handleTx raw nowMs => rfl
  | handleIX raw nowMs => rfl
  | storeTxDone p err addrs => rfl
  | handleBlock b => rfl
  | storeTipBlockDone bh err height => rfl
  | resyncDone => rfl

theorem step_no_timer (lib : Lib) (w : World) (e : Event) (n : Nat)
    (hl : w.listeners = regs n) (he : e ≠ .netDisconnected) (ht : w.timers = []) :
    (step lib w e).1.timers = [] := by
  cases e with
  | run => exact filter_nil_of_nil w ht
  | connection c =>
    simp only [step, emit, listenersOf_regs w n hl, listenerFor, callAll_onConnection_world]
    split <;> exact ht
  | connect c =>
    simp only [step, emit, listenersOf_regs w n hl, listenerFor, callAll_handleConnected_world]
    exact ht
  | netDisconnected => exact absurd rfl he
  | tick =>
    simp only [step]
    split
    · exact ht
    · exact checkStatus_no_timer w ht
  | checkStatus => exact checkStatus_no_timer w ht
  | info => exact ht
  | close => exact ht
  | handleInv c invs => exact ht
  | handleTx raw nowMs => exact ht
  | handleIX raw nowMs => exact ht
  | storeTxDone p err addrs => exact ht
  | handleBlock b => exact ht
  | storeTipBlockDone bh err height => exact ht
  | resyncDone => exact ht

theorem step_fixed (lib : Lib) (w : World) (e : Event) :
    (step lib w e).1.ps.fixed = w.ps.fixed := by
  cases e with
  | run => rfl
  | connection c => exact callAll_fixed _ _ w
  | connect c => exact callAll_fixed _ _ w
  | netDisconnected => exact callAll_fixed _ _ w
  | tick =>
    simp only [step]
    split
    · rfl
    · rw [checkStatus_ps]
  | checkStatus =>
    simp only [step]
    rw [checkStatus_ps]
  | info => rfl
  | close => rfl
  | handleInv c invs => rfl
  | handleTx raw nowMs => rfl
  | handleIX raw nowMs => rfl
  | storeTxDone p err addrs => rfl
  | handleBlock b => rfl
  | storeTipBlockDone bh err height => rfl
  | resyncDone => rfl

theorem runTrace_fixed (lib : Lib) (evs : List Event) (w : World) :
    (runTrace lib w evs).1.ps.fixed = w.ps.fixed := by
  induction evs generalizing w with
  | nil => rfl
  | cons e es ih =>
    simp only [runTrace]
    rw [ih, step_fixed]

theorem runTrace_append (lib : Lib) (xs ys : List Event) (w : World) :
    (runTrace lib w (xs ++ ys)).1 = (runTrace lib (runTrace lib w xs).1 ys).1 := by
  induction xs generalizing w with
  | nil => rfl
  | cons e es ih => exact ih (step lib w e).1

theorem runTrace_stays_disconnected (lib : Lib) (evs : List Event) (w : World) (n : Nat)
    (hl : w.listeners = regs n) (hc : w.ps.connected = false)
    (hno : ∀ c, Event.connection c ∉ evs) :
    (runTrace lib w evs).1.ps.connected = false := by
  induction evs generalizing w n with
  | nil => exact hc
  | cons e es ih =>
    simp only [runTrace]
    refine ih _ _ (step_listeners lib w e n hl) ?_ (fun c hm => hno c (List.mem_cons_of_mem _ hm))
    rw [step_connected lib w e n hl]
    cases e with
    | connection c => exact absurd (List.mem_cons_self _ _) (hno c)
    | netDisconnected =>
      simp only
      split
      · exact hc
      · rfl
    | _ => exact hc

theorem runTrace_stays_connected (lib : Lib) (evs : List Event) (w : World) (n : Nat)
    (hl : w.listeners = regs n) (hc : w.ps.connected = true)
    (hno : Event.netDisconnected ∉ evs) :
    (runTrace lib w evs).1.ps.connected = true := by
  induction evs generalizing w n with
  | nil => exact hc
  | cons e es ih =>
    simp only [runTrace]
    refine ih _ _ (step_listeners lib w e n hl) ?_ (fun hm => hno (List.mem_cons_of_mem _ hm))
    rw [step_connected lib w e n hl]
    cases e with
    | netDisconnected => exact absurd (List.mem_cons_self _ _) hno
    | connection c =>
      simp only
      split
      · exact hc
      · rfl
    | _ => exact hc

theorem runTrace_no_timer (lib : Lib) (evs : List Event) (w : World) (n : Nat)
    (hl : w.listeners = regs n) (ht : w.timers = [])
    (hno : Event.netDisconnected ∉ evs) :
    (runTrace lib w evs).1.timers = [] := by
  induction evs generalizing w n with
  | nil => exact ht
  | cons e es ih =>
    simp only [runTrace]
    refine ih _ _ (step_listeners lib w e n hl) ?_ (fun hm => hno (List.mem_cons_of_mem _ hm))
    refine step_no_timer lib w e n hl ?_ ht
    intro he
    exact hno (he ▸ List.mem_cons_self _ _)

theorem runCount_pos_of_run (lib : Lib) (evs : List Event) (w : World)
    (h : Event.run ∈ evs) : 0 < runCount (runTrace lib w evs).2 := by
  induction evs generalizing w with
  | nil => simp at h
  | cons e es ih =>
    simp only [runTrace, runCount_append]
    rcases List.mem_cons.1 h with rfl | hm
    · simp only [step, runCount_run]
      omega
    · have := ih (step lib w e).1 hm
      omega

theorem after_listeners (lib : Lib) (cfg : Config) (opts : Opts) (evs : List Event) :
    (after lib cfg opts evs).listeners
      = regs (runCount (runTrace lib (construct cfg opts).1 evs).2) := by
  have h0 := runTrace_listeners lib evs (construct cfg opts).1 0 rfl
  rw [Nat.zero_add] at h0
  exact h0

theorem after_fixed (lib : Lib) (cfg : Config) (opts : Opts) (evs : List Event) :
    (after lib cfg opts evs).ps.interval = 5000
      ∧ (after lib cfg opts evs).ps.peerdb = [{ ipv4 := cfg.p2pHost, port := cfg.p2pPort }] := by
  have h := runTrace_fixed lib evs (construct cfg opts).1
  simp only [PeerSync.fixed, Prod.mk.injEq] at h
  exact ⟨h.2.1, h.2.2.1⟩

theorem after_no_timer (lib : Lib) (cfg : Config) (opts : Opts) (evs : List Event)
    (hno : Event.netDisconnected ∉ evs) : (after lib cfg opts evs).timers = [] :=
  runTrace_no_timer lib evs (construct cfg opts).1 0 rfl rfl hno

theorem checkStatus_connected (w : World) (hc : w.ps.connected = true) :
    checkStatus w = (w, []) := by
  simp [checkStatus, hc]

theorem tick_connected (lib : Lib) (w : World) (hc : w.ps.connected = true) :
    step lib w .tick = (w, []) := by
  simp only [step, checkStatus_connected w hc]
  split <;> rfl

theorem step_keeps_timers_connected (lib : Lib) (w : World) (e : Event) (n : Nat)
    (hl : w.listeners = regs n) (hc : w.ps.connected = true)
    (he1 : e ≠ .netDisconnected) (he2 : e ≠ .run) :
    (step lib w e).1.timers = w.timers := by
  cases e with
  | run => exact absurd rfl he2
  | connection c =>
    simp only [step, emit, listenersOf_regs w n hl, listenerFor, callAll_onConnection_world]
    split <;> rfl
  | connect c =>
    simp only [step, emit, listenersOf_regs w n hl, listenerFor, callAll_handleConnected_world]
  | netDisconnected => exact absurd rfl he1
  | tick => rw [tick_connected lib w hc]
  | checkStatus =>
    simp only [step]
    rw [checkStatus_connected w hc]
  | info => rfl
  | close => rfl
  | handleInv c invs => rfl
  | handleTx raw nowMs => rfl
  | handleIX raw nowMs => rfl
  | storeTxDone p err addrs => rfl
  | handleBlock b => rfl
  | storeTipBlockDone bh err height => rfl
  | resyncDone => rfl

theorem step_stays_connected (lib : Lib) (w : World) (e : Event) (n : Nat)
    (hl : w.listeners = regs n) (hc : w.ps.connected = true) (he : e ≠ .netDisconnected) :
    (step lib w e).1.ps.connected = true := by
  rw [step_connected lib w e n hl]
  cases e with
  | netDisconnected => exact absurd rfl he
  | connection c =>
    simp only
    split
    · exact hc
    · rfl
  | _ => exact hc

theorem runTrace_keeps_timers_connected (lib : Lib) (post : List Event) (w : World) (n : Nat)
    (hl : w.listeners = regs n) (hc : w.ps.connected = true)
    (hno : Event.netDisconnected ∉ post) (hrun : Event.run ∉ post) :
    (runTrace lib w post).1.timers = w.timers := by
  induction post generalizing w n with
  | nil => rfl
  | cons e es ih =>
    have he1 : e ≠ .netDisconnected := fun he => hno (he ▸ List.mem_cons_self _ _)
    have he2 : e ≠ .run := fun he => hrun (he ▸ List.mem_cons_self _ _)
    simp only [runTrace]
    rw [ih _ _ (step_listeners lib w e n hl) (step_stays_connected lib w e n hl hc he1)
      (fun hm => hno (List.mem_cons_of_mem _ hm)) (fun hm => hrun (List.mem_cons_of_mem _ hm))]
    exact step_keeps_timers_connected lib w e n hl hc he1 he2

/-- C5, as stated, fails, in both directions and in its particular case:
after run, a disconnect and a connection, the timer is set while the object is
connected; after run, a disconnect and a watchdog tick, the object is
disconnected and no timer is set; and a disconnect event arriving after that
(a connection was made and lost again) starts no timer. -/
theorem watchdog_not_iff_disconnected :
    ((after sampleLib sampleCfg sampleOpts [.run, .netDisconnected, .connection 0]).timers
          = [(1, 5000)]
        ∧ (after sampleLib sampleCfg sampleOpts
            [.run, .netDisconnected, .connection 0]).ps.connected = true)
      ∧ ((after sampleLib sampleCfg sampleOpts [.run, .netDisconnected, .tick]).timers = []
        ∧ (after sampleLib sampleCfg sampleOpts
            [.run, .netDisconnected, .tick]).ps.connected = false)
      ∧ ((after sampleLib sampleCfg sampleOpts
            [.run, .netDisconnected, .tick, .connection 0]).timers = []
        ∧ (after sampleLib sampleCfg sampleOpts
            [.run, .netDisconnected, .tick, .connection 0, .netDisconnected]).timers = []
        ∧ (after sampleLib sampleCfg sampleOpts
            [.run, .netDisconnected, .tick, .connection 0, .netDisconnected]).ps.connected
          = false) := by
  decide

/-- C5, amended: in every state reached from run by any events, a timer is set
only if a netDisconnected event has arrived; a connection event leaves the
timers as they are; while the object is connected a watchdog tick does nothing
at all, and over any further events with no netDisconnected event and no call
of run the timers stay exactly as they are (a running watchdog is kept while
connected); and when a netDisconnected event arrives while this.timer has never
been assigned, the object becomes disconnected and exactly one timer, with the
fixed interval 5000, is started by exactly one setInterval call. -/
theorem watchdog_starts_on_first_disconnect (lib : Lib) (cfg : Config) (opts : Opts)
    (evs post : List Event) (conn : Nat) :
    ((after lib cfg opts (.run :: evs)).timers = [] ∨ Event.netDisconnected ∈ evs)
      ∧ (step lib (after lib cfg opts (.run :: evs)) (.connection conn)).1.timers
        = (after lib cfg opts (.run :: evs)).timers
      ∧ ((after lib cfg opts (.run :: evs)).ps.connected = true →
          step lib (after lib cfg opts (.run :: evs)) .tick
            = (after lib cfg opts (.run :: evs), []))
      ∧ ((after lib cfg opts (.run :: evs)).ps.connected = true →
          Event.netDisconnected ∉ post → Event.run ∉ post →
          (runTrace lib (after lib cfg opts (.run :: evs)) post).1.timers
            = (after lib cfg opts (.run :: evs)).timers)
      ∧ ((after lib cfg opts (.run :: evs)).ps.timer = none →
          (step lib (after lib cfg opts (.run :: evs)) .netDisconnected).1.timers
              = [((after lib cfg opts (.run :: evs)).nextHandle, 5000)]
            ∧ (step lib (after lib cfg opts (.run :: evs)) .netDisconnected).1.ps.connected
              = false
            ∧ (step lib (after lib cfg opts (.run :: evs)) .netDisconnected).1.ps.timer
              = some (after lib cfg opts (.run :: evs)).nextHandle
            ∧ (step lib (after lib cfg opts (.run :: evs)) .netDisconnected).2
              = [.setInterval (after lib cfg opts (.run :: evs)).nextHandle 5000]) := by
  have hl0 := after_listeners lib cfg opts (.run :: evs)
  have hl := hl0
  have hinv : TimerInv (after lib cfg opts (.run :: evs)) :=
    runTrace_timerInv lib _ _ (construct_timerInv cfg opts)
  have hpos := runCount_pos_of_run lib (.run :: evs) (construct cfg opts).1
    (List.mem_cons_self _ _)
  obtain ⟨k, hk⟩ : ∃ k, runCount (runTrace lib (construct cfg opts).1 (.run :: evs)).2 = k + 1 :=
    ⟨_, (Nat.succ_pred_eq_of_pos hpos).symm⟩
  rw [hk] at hl
  refine ⟨?_, ?_, ?_, ?_, ?_⟩
  · by_cases hm : Event.netDisconnected ∈ evs
    · exact Or.inr hm
    · refine Or.inl (after_no_timer lib cfg opts _ ?_)
      simpa using hm
  · simp only [step, emit, listenersOf_regs _ _ hl, listenerFor, callAll_onConnection_world]
    rfl
  · exact fun hc => tick_connected lib _ hc
  · exact fun hc hno hrun => runTrace_keeps_timers_connected lib post _ _ hl hc hno hrun
  · intro ht
    have h5 := (after_fixed lib cfg opts (.run :: evs)).1
    have h0 := hinv.2 ht
    simp only [step, emit, listenersOf_regs _ _ hl, listenerFor, callAll_onNetDisconnected,
      onNetDisconnected_unset 0 _ ht, h5, h0, List.nil_append, and_self]

/-- Witness for C5, amended: the state after run and a connection, where
this.timer is unset and a disconnect starts the timer; and the state after run,
a disconnect and a connection, where the timer is running while connected, a
tick does nothing and the timer is still set after a tick, a connect event and
a further connection. -/
theorem watchdog_starts_on_first_disconnect_witness :
    ((after sampleLib sampleCfg sampleOpts [.run, .connection 3]).ps.timer = none
        ∧ (step sampleLib (after sampleLib sampleCfg sampleOpts [.run, .connection 3])
            .netDisconnected).1.timers = [(1, 5000)]
        ∧ (step sampleLib (after sampleLib sampleCfg sampleOpts [.run, .connection 3])
            .netDisconnected).2 = [.setInterval 1 5000])
      ∧ ((after sampleLib sampleCfg sampleOpts
            [.run, .netDisconnected, .connection 0]).ps.connected = true
        ∧ (after sampleLib sampleCfg sampleOpts
            [.run, .netDisconnected, .connection 0]).timers = [(1, 5000)]
        ∧ step sampleLib
            (after sampleLib sampleCfg sampleOpts [.run, .netDisconnected, .connection 0]) .tick
          = (after sampleLib sampleCfg sampleOpts [.run, .netDisconnected, .connection 0], [])
        ∧ (runTrace sampleLib
            (after sampleLib sampleCfg sampleOpts [.run, .netDisconnected, .connection 0])
            [.tick, .connect 1, .connection 4]).1.timers
          = (after sampleLib sampleCfg sampleOpts
              [.run, .netDisconnected, .connection 0]).timers) :=
  ⟨⟨by decide,
      ((watchdog_starts_on_first_disconnect sampleLib sampleCfg sampleOpts [.connection 3] []
        0).2.2.2.2 (by decide)).1,
      ((watchdog_starts_on_first_disconnect sampleLib sampleCfg sampleOpts [.connection 3] []
        0).2.2.2.2 (by decide)).2.2.2⟩,
    ⟨by decide, by decide,
      (watchdog_starts_on_first_disconnect sampleLib sampleCfg sampleOpts
        [.netDisconnected, .connection 0] [.tick, .connect 1, .connection 4] 0).2.2.1
        (by decide),
      (watchdog_starts_on_first_disconnect sampleLib sampleCfg sampleOpts
        [.netDisconnected, .connection 0] [.tick, .connect 1, .connection 4] 0).2.2.2.1
        (by decide) (by decide) (by decide)⟩⟩

/-- C7, as stated, fails: close called while disconnected with the watchdog
running leaves the timer set and the three listeners registered. -/
theorem close_leaves_timer_and_listeners :
    (close (after sampleLib sampleCfg sampleOpts [.run, .netDisconnected])).1.timers
        = [(1, 5000)]
      ∧ (close (after sampleLib sampleCfg sampleOpts [.run, .netDisconnected])).1.listeners.length
        = 3 := by
  decide

/-- C7, amended: in every state, close calls the storage close exactly once
and changes nothing else: timers and listeners are as before. So after close
no timer is set only where none was set before: in the never-started state,
which also has no listeners, and in every state no netDisconnected event has
led to. -/
theorem close_only_closes_storage (lib : Lib) (cfg : Config) (opts : Opts) (w : World)
    (evs : List Event) :
    step lib w .close = (w, [.syncClose])
      ∧ (step lib (after lib cfg opts []) .close).1.timers = []
      ∧ (step lib (after lib cfg opts []) .close).1.listeners = []
      ∧ ((step lib (after lib cfg opts evs) .close).1.timers = []
        ∨ Event.netDisconnected ∈ evs) := by
  refine ⟨rfl, rfl, rfl, ?_⟩
  by_cases hm : Event.netDisconnected ∈ evs
  · exact Or.inr hm
  · exact Or.inl (after_no_timer lib cfg opts _ hm)

theorem info_of_peerdb (self : PeerSync) (p : PeerEntry) (h : self.peerdb = [p]) :
    info self = .ok { connected := self.connected, host := p.ipv4, port := p.port } := by
  simp [info, h]

/-- C10: on a new object, after any sequence of events without a connection
event, info returns connected false with the host and port of the loaded peer;
after a connection event that follows a run (which registers the listener) and
any further events without a netDisconnected event, info returns connected
true, with the same host and port; and asking for info changes nothing. -/
theorem info_connected_flag (lib : Lib) (cfg : Config) (opts : Opts)
    (evs pre post : List Event) (conn : Nat) (w : World)
    (hno : ∀ c, Event.connection c ∉ evs) (hrun : Event.run ∈ pre)
    (hpost : Event.netDisconnected ∉ post) :
    info (after lib cfg opts evs).ps
        = .ok { connected := false, host := cfg.p2pHost, port := cfg.p2pPort }
      ∧ info (after lib cfg opts (pre ++ .connection conn :: post)).ps
        = .ok { connected := true, host := cfg.p2pHost, port := cfg.p2pPort }
      ∧ step lib w .info = (w, []) := by
  refine ⟨?_, ?_, rfl⟩
  · rw [info_of_peerdb _ _ (after_fixed lib cfg opts evs).2]
    have hc : (after lib cfg opts evs).ps.connected = false :=
      runTrace_stays_disconnected lib evs (construct cfg opts).1 0 rfl rfl hno
    rw [hc]
  · rw [info_of_peerdb _ _ (after_fixed lib cfg opts _).2]
    have hc : (after lib cfg opts (pre ++ .connection conn :: post)).ps.connected = true := by
      unfold after
      rw [runTrace_append]
      have hl := after_listeners lib cfg opts pre
      have hpos := runCount_pos_of_run lib pre (construct cfg opts).1 hrun
      obtain ⟨k, hk⟩ : ∃ k, runCount (runTrace lib (construct cfg opts).1 pre).2 = k + 1 :=
        ⟨_, (Nat.succ_pred_eq_of_pos hpos).symm⟩
      rw [hk] at hl
      unfold after at hl
      simp only [runTrace]
      refine runTrace_stays_connected lib post _ _ (step_listeners lib _ _ _ hl) ?_ hpost
      rw [step_connected lib _ _ _ hl]
      rfl
    rw [hc]

/-- Witness for C10: a disconnect and a tick without any connection; and a
connection after run, followed by a connect event and a tick. -/
theorem info_connected_flag_witness :
    Event.run ∈ [Event.run, Event.connect 0]
      ∧ Event.netDisconnected ∉ [Event.connect 1, Event.tick]
      ∧ info (after sampleLib sampleCfg sampleOpts [.run, .netDisconnected, .tick]).ps
        = .ok { connected := false, host := "127.0.0.1", port := 9999 }
      ∧ info (after sampleLib sampleCfg sampleOpts
          ([.run, .connect 0] ++ .connection 3 :: [.connect 1, .tick])).ps
        = .ok { connected := true, host := "127.0.0.1", port := 9999 } :=
  ⟨by decide, by decide,
    (info_connected_flag sampleLib sampleCfg sampleOpts [.run, .netDisconnected, .tick]
      [.run, .connect 0] [.connect 1, .tick] 3 (construct sampleCfg sampleOpts).1
      (by simp) (by decide) (by decide)).1,
    (info_connected_flag sampleLib sampleCfg sampleOpts [.run, .netDisconnected, .tick]
      [.run, .connect 0] [.connect 1, .tick] 3 (construct sampleCfg sampleOpts).1
      (by simp) (by decide) (by decide)).2.1⟩

end Insight
